import Mathlib

/-!
Shallow embedding of the download-and-progress-tracking subsystem of
`volumes/webshare/app.py`.

The Python module keeps a process-global dict `active_downloads` mapping a
file id to a dict of status fields.  We model that dict as an association
list `List (String × Entry)` with first-match lookup, in-place replacement
and deletion, matching Python `d[k]`, `d[k] = v`, `del d[k]` and `k in d`.

The route handler `download` (line 208), the background task
`download_file_background` (line 104) and the delayed `cleanup` (line 191)
are each translated as pure functions.  External effects (the Webshare
metadata call, `os.makedirs`, the streaming HTTP fetch, the chunk iterator,
`os.chmod`, the Plex refresh call) are supplied as an explicit `Env` record:
each fallible call is an `Except String` value, mirroring a Python call that
either returns or raises.  Within one task the entry for its file id is
present throughout (it is inserted first and only the separately modelled
cleanup ever deletes), so each field mutation
`active_downloads[file_id][k] = v` is modelled by computing the updated
record and storing it with `regSet`.  The task result carries, besides the
final registry, the `trace`: the entry value after each individual mutation
of `active_downloads[file_id]`, in program order — one snapshot per
assignment statement — plus `cleanupDelay`, the delay of the cleanup thread
spawned at line 196 (`none` when no cleanup thread is spawned).

Python's `int((downloaded_size / total_size) * 80)` (line 155) truncates a
nonnegative float quotient; it is modelled as the exact floor
`downloaded * 80 / total` in `Nat`.
-/

/-- The `status` strings stored in `active_downloads`: `'downloading'`,
`'completed'`, `'error'` (the module never stores any other status). -/
inductive Status where
  | downloading
  | completed
  | error
deriving DecidableEq, Repr

/-- One value of the `active_downloads` dict.  Keys that a given Python dict
value does not (yet) contain are `none`. -/
structure Entry where
  status : Status
  fileName : Option String
  progress : Nat
  message : String
  startTime : Option Nat
  totalSize : Option Nat
  downloadedSize : Option Nat
  filePath : Option String
  finalSize : Option Nat
  error : Option String
deriving DecidableEq, Repr

/-- Dict lookup `active_downloads[file_id]` / membership `file_id in active_downloads`. -/
def regFind? : List (String × Entry) → String → Option Entry
  | [], _ => none
  | (k, v) :: rest, fid => if k = fid then some v else regFind? rest fid

/-- Dict assignment `active_downloads[file_id] = e` (replace the first binding
for the key, or append a fresh one). -/
def regSet : List (String × Entry) → String → Entry → List (String × Entry)
  | [], fid, e => [(fid, e)]
  | (k, v) :: rest, fid, e =>
    if k = fid then (k, e) :: rest else (k, v) :: regSet rest fid e

/-- Dict deletion `del active_downloads[file_id]`. -/
def regDel : List (String × Entry) → String → List (String × Entry)
  | [], _ => []
  | (k, v) :: rest, fid => if k = fid then regDel rest fid else (k, v) :: regDel rest fid

theorem regFind?_regSet_self (reg : List (String × Entry)) (fid : String) (e : Entry) :
    regFind? (regSet reg fid e) fid = some e := by
  induction reg with
  | nil => simp [regSet, regFind?]
  | cons kv rest ih =>
    obtain ⟨k, v⟩ := kv
    by_cases hk : k = fid
    · simp [regSet, hk, regFind?]
    · simp [regSet, hk, regFind?, ih]

theorem regFind?_regDel_self (reg : List (String × Entry)) (fid : String) :
    regFind? (regDel reg fid) fid = none := by
  induction reg with
  | nil => simp [regDel, regFind?]
  | cons kv rest ih =>
    obtain ⟨k, v⟩ := kv
    by_cases hk : k = fid
    · simp [regDel, hk, ih]
    · simp [regDel, hk, regFind?, ih]

/-- Result of `webshare_client.initiate_download(file_id)` when the call
succeeds: `downloadUrl`, `fileSize` (via `.get('fileSize', 0)`) and
`fileName` (used when the caller supplied none). -/
structure DownloadInfo where
  downloadUrl : String
  fileSize : Nat
  fileName : String
deriving Repr

/-- The external world as seen by one background task.  Each `Except`-valued
field models one fallible call: `Except.error msg` is a raised exception
whose string form is `msg`. -/
structure Env where
  /-- `time.time()` at task start. -/
  now : Nat
  /-- `webshare_client.initiate_download(file_id)`. -/
  initiate : Except String DownloadInfo
  /-- `os.makedirs(download_path, exist_ok=True)`. -/
  makedirs : Except String Unit
  /-- `session.get(download_url, stream=True)` followed by
  `raise_for_status()`; on success carries the `content-length` header
  (absent when the server does not send one). -/
  fetch : Except String (Option Nat)
  /-- `response.iter_content(chunk_size=8192)`: each element yields a chunk
  of the given byte length, or raises mid-stream (this also stands for a
  failing `f.write`). -/
  chunks : List (Except String Nat)
  /-- Whether `os.chmod(file_path, 0o644)` succeeds; its failure is caught
  and only logged (lines 161-165), so it never affects state. -/
  chmodOk : Bool
  /-- Whether `PLEX_TOKEN` is configured (nonempty). -/
  plexToken : Bool
  /-- `requests.put(refresh_url, timeout=5)`: raised exception or the HTTP
  status code.  Caught and only logged (lines 178-186). -/
  plexResult : Except String Nat
deriving Repr

/-- The first exception raised by the chunk iterator, if any.  The outcome of
the streaming loop's iteration does not depend on the registry. -/
def firstStreamError : List (Except String Nat) → Option String
  | [] => none
  | Except.error m :: _ => some m
  | Except.ok _ :: rest => firstStreamError rest

/-- The dict assigned at lines 108-114 when the task starts. -/
def initialEntry (fileName : Option String) (now : Nat) : Entry :=
  { status := Status.downloading
    fileName := fileName
    progress := 0
    message := "Starting download..."
    startTime := some now
    totalSize := none
    downloadedSize := none
    filePath := none
    finalSize := none
    error := none }

/-- The dict assigned at lines 200-206 by the `except` handler: a wholesale
replacement that carries only status, fileName, progress 0, message and
error. -/
def failEntry (fileName : Option String) (msg : String) : Entry :=
  { status := Status.error
    fileName := fileName
    progress := 0
    message := "Download failed: " ++ msg
    startTime := none
    totalSize := none
    downloadedSize := none
    filePath := none
    finalSize := none
    error := some msg }

/-- Outcome of one run of `download_file_background`. -/
structure TaskResult where
  reg : List (String × Entry)
  trace : List Entry
  cleanupDelay : Option Nat
deriving Repr

/-- The `except` handler of `download_file_background` (lines 198-206):
replaces the entry and spawns no cleanup thread. -/
def failResult (fid : String) (fileName : Option String) (msg : String)
    (reg : List (String × Entry)) (tr : List Entry) : TaskResult :=
  let e := failEntry fileName msg
  { reg := regSet reg fid e, trace := tr ++ [e], cleanupDelay := none }

/-- `progress = min(90, 10 + int((downloaded_size / total_size) * 80))`,
line 155. -/
def chunkProgress (downloaded total : Nat) : Nat :=
  min 90 (10 + downloaded * 80 / total)

/-- State after the streaming loop of lines 147-158. -/
structure StreamResult where
  err : Option String
  downloaded : Nat
  entry : Entry
  reg : List (String × Entry)
  snaps : List Entry
deriving Repr

/-- The loop `for chunk in response.iter_content(...)` (lines 148-158).
`d` accumulates `downloaded_size`, `e` is the current value of
`active_downloads[fid]`, and `snaps` collects the entry after each mutation.
An empty chunk is skipped (`if chunk:`); when `total = 0` nothing in the
registry is touched — note that the `downloadedSize` write at line 158 sits
inside the `if total_size > 0` block. -/
def streamLoop (fid : String) (total : Nat) :
    List (Except String Nat) → Nat → Entry → List (String × Entry) → StreamResult
  | [], d, e, r => { err := none, downloaded := d, entry := e, reg := r, snaps := [] }
  | Except.error msg :: _, d, e, r =>
    { err := some msg, downloaded := d, entry := e, reg := r, snaps := [] }
  | Except.ok sz :: rest, d, e, r =>
    if sz = 0 then
      streamLoop fid total rest d e r
    else
      let d' := d + sz
      if 0 < total then
        let p := chunkProgress d' total
        let e1 := { e with progress := p }
        let r1 := regSet r fid e1
        let e2 := { e1 with message := "Downloading... " ++ toString (p - 10) ++ "%" }
        let r2 := regSet r1 fid e2
        let e3 := { e2 with downloadedSize := some d' }
        let r3 := regSet r2 fid e3
        let res := streamLoop fid total rest d' e3 r3
        { res with snaps := e1 :: e2 :: e3 :: res.snaps }
      else
        streamLoop fid total rest d' e r

/-- The tail of the success path (lines 160-196): chmod (best effort), the
five terminal-field mutations, the Plex refresh (best effort) and the spawn
of the 30-second cleanup thread. -/
def finishResult (fid : String) (filePath : String) (env : Env) (s : StreamResult)
    (trHead : List Entry) : TaskResult :=
  let _ := env.chmodOk
  let e7 := { s.entry with status := Status.completed }
  let r7 := regSet s.reg fid e7
  let e8 := { e7 with progress := 100 }
  let r8 := regSet r7 fid e8
  let e9 := { e8 with message := "Download completed!" }
  let r9 := regSet r8 fid e9
  let e10 := { e9 with filePath := some filePath }
  let r10 := regSet r9 fid e10
  let e11 := { e10 with finalSize := some s.downloaded }
  let r11 := regSet r10 fid e11
  let _ :=
    if env.plexToken then
      match env.plexResult with
      | Except.ok _code => ()
      | Except.error _err => ()
    else ()
  { reg := r11
    trace := trHead ++ s.snaps ++ [e7, e8, e9, e10, e11]
    cleanupDelay := some 30 }

/-- `download_file_background(file_id, file_name, download_path)`,
lines 104-206, run against registry `reg0`. -/
def download_file_background (fid : String) (fileName : Option String)
    (downloadPath : String) (env : Env) (reg0 : List (String × Entry)) : TaskResult :=
  let e0 := initialEntry fileName env.now
  let r0 := regSet reg0 fid e0
  match env.initiate with
  | Except.error msg => failResult fid fileName msg r0 [e0]
  | Except.ok info =>
    let name := match fileName with
      | some n => n
      | none => info.fileName
    match env.makedirs with
    | Except.error msg => failResult fid (some name) msg r0 [e0]
    | Except.ok _ =>
      let filePath := downloadPath ++ "/" ++ name
      let e1 := { e0 with message := "Connecting to server..." }
      let r1 := regSet r0 fid e1
      let e2 := { e1 with progress := 5 }
      let r2 := regSet r1 fid e2
      match env.fetch with
      | Except.error msg => failResult fid (some name) msg r2 [e0, e1, e2]
      | Except.ok contentLength? =>
        let totalSize := contentLength?.getD info.fileSize
        let e3 := { e2 with message := "Downloading... 0%" }
        let r3 := regSet r2 fid e3
        let e4 := { e3 with progress := 10 }
        let r4 := regSet r3 fid e4
        let e5 := { e4 with totalSize := some totalSize }
        let r5 := regSet r4 fid e5
        let s := streamLoop fid totalSize env.chunks 0 e5 r5
        match s.err with
        | some msg =>
          failResult fid (some name) msg s.reg ([e0, e1, e2, e3, e4, e5] ++ s.snaps)
        | none => finishResult fid filePath env s [e0, e1, e2, e3, e4, e5]

/-- The body run by the cleanup thread after its 30-second sleep
(lines 191-194): delete the entry if it is still present — the only
condition checked is presence. -/
def cleanup (fid : String) (reg : List (String × Entry)) : List (String × Entry) :=
  match regFind? reg fid with
  | some _ => regDel reg fid
  | none => reg

/-- Destination paths read from the environment at process start
(`MOVIES_PATH`, `SERIES_PATH`). -/
structure Config where
  moviesPath : String
  seriesPath : String
deriving Repr

/-- The JSON body of a `POST /api/download` request, as read by
`data.get(...)`: `none` stands for an absent (or null) field. -/
structure DownloadRequest where
  fileId : Option String
  fileName : Option String
  contentType : Option String
deriving Repr

/-- `content_type = data.get('contentType', 'movie')` followed by
`if content_type == 'series': SERIES_PATH else: MOVIES_PATH`
(lines 215, 221-224). -/
def destinationPath (cfg : Config) (contentType : Option String) : String :=
  if contentType.getD "movie" = "series" then cfg.seriesPath else cfg.moviesPath

/-- A `threading.Thread(target=download_file_background, args=(...))` started
by the route handler (lines 238-243). -/
structure SpawnedTask where
  fileId : String
  fileName : Option String
  downloadPath : String
deriving DecidableEq, Repr

/-- Python string interpolation of a possibly-`None` file name. -/
def showName : Option String → String
  | some n => n
  | none => "None"

/-- The JSON payloads the `download` route can answer with. -/
inductive DownloadResponse where
  | badRequest (error : String)
  | alreadyInProgress (message : String) (status : Status) (progress : Nat)
  | started (message : String) (fileId : String)
deriving DecidableEq, Repr

/-- What the synchronous route handler did: its response, the registry as it
stands when the handler returns, and the background threads it started. -/
structure HandlerResult where
  response : DownloadResponse
  reg : List (String × Entry)
  spawned : List SpawnedTask
deriving Repr

/-- Python falsiness of the `fileId` field (`if not file_id`): absent, null
or the empty string. -/
def fileIdFalsy : Option String → Bool
  | none => true
  | some s => s = ""

/-- The `POST /api/download` route handler (lines 208-249).  Note that it
does not itself write to `active_downloads`: when the id is new it only
starts the background thread and returns; the entry is inserted by that
thread (line 108). -/
def download (cfg : Config) (req : DownloadRequest) (reg : List (String × Entry)) :
    HandlerResult :=
  if fileIdFalsy req.fileId then
    { response := DownloadResponse.badRequest "File ID is required"
      reg := reg, spawned := [] }
  else
    let fid := req.fileId.getD ""
    let downloadPath := destinationPath cfg req.contentType
    match regFind? reg fid with
    | some e =>
      { response := DownloadResponse.alreadyInProgress
          ("Download already in progress: " ++ showName req.fileName) e.status e.progress
        reg := reg, spawned := [] }
    | none =>
      { response := DownloadResponse.started
          ("Download started: " ++ showName req.fileName) fid
        reg := reg
        spawned := [{ fileId := fid, fileName := req.fileName, downloadPath := downloadPath }] }

theorem chunkProgress_le_90 (d t : Nat) : chunkProgress d t ≤ 90 :=
  Nat.min_le_left _ _

theorem chunkProgress_ge_10 (d t : Nat) : 10 ≤ chunkProgress d t :=
  le_min (by omega) (Nat.le_add_right 10 _)

theorem chunkProgress_mono {d1 d2 : Nat} (t : Nat) (h : d1 ≤ d2) :
    chunkProgress d1 t ≤ chunkProgress d2 t := by
  unfold chunkProgress
  gcongr

theorem chunkProgress_zero (t : Nat) : chunkProgress 0 t = 10 := by
  simp [chunkProgress]

theorem streamLoop_err (fid : String) (total : Nat) :
    ∀ (chunks : List (Except String Nat)) (d : Nat) (e : Entry)
      (r : List (String × Entry)),
    (streamLoop fid total chunks d e r).err = firstStreamError chunks := by
  intro chunks
  induction chunks with
  | nil => intro d e r; simp [streamLoop, firstStreamError]
  | cons c rest ih =>
    intro d e r
    rcases c with msg | sz
    · simp [streamLoop, firstStreamError]
    · by_cases hsz : sz = 0
      · simp [streamLoop, hsz, firstStreamError, ih]
      · by_cases ht : 0 < total
        · simp [streamLoop, hsz, ht, firstStreamError, ih]
        · simp [streamLoop, hsz, ht, firstStreamError, ih]

theorem streamLoop_total_zero (fid : String) :
    ∀ (chunks : List (Except String Nat)) (d : Nat) (e : Entry)
      (r : List (String × Entry)),
    (streamLoop fid 0 chunks d e r).entry = e ∧
    (streamLoop fid 0 chunks d e r).reg = r ∧
    (streamLoop fid 0 chunks d e r).snaps = [] := by
  intro chunks
  induction chunks with
  | nil => intro d e r; simp [streamLoop]
  | cons c rest ih =>
    intro d e r
    rcases c with msg | sz
    · simp [streamLoop]
    · by_cases hsz : sz = 0
      · simp [streamLoop, hsz, ih]
      · simp [streamLoop, hsz, ih]

theorem streamLoop_find? (fid : String) (total : Nat) :
    ∀ (chunks : List (Except String Nat)) (d : Nat) (e : Entry)
      (r : List (String × Entry)),
    regFind? r fid = some e →
    regFind? (streamLoop fid total chunks d e r).reg fid =
      some (streamLoop fid total chunks d e r).entry := by
  intro chunks
  induction chunks with
  | nil => intro d e r h; simpa [streamLoop] using h
  | cons c rest ih =>
    intro d e r h
    rcases c with msg | sz
    · simpa [streamLoop] using h
    · by_cases hsz : sz = 0
      · simpa [streamLoop, hsz] using ih d e r h
      · by_cases ht : 0 < total
        · simpa [streamLoop, hsz, ht] using
            ih (d + sz) _ _ (regFind?_regSet_self _ fid _)
        · simpa [streamLoop, hsz, ht] using ih (d + sz) e r h

theorem streamLoop_entry_bound (fid : String) (total : Nat) :
    ∀ (chunks : List (Except String Nat)) (d : Nat) (e : Entry)
      (r : List (String × Entry)),
    10 ≤ e.progress → e.progress ≤ 90 →
    10 ≤ (streamLoop fid total chunks d e r).entry.progress ∧
    (streamLoop fid total chunks d e r).entry.progress ≤ 90 := by
  intro chunks
  induction chunks with
  | nil => intro d e r h1 h2; simpa [streamLoop] using ⟨h1, h2⟩
  | cons c rest ih =>
    intro d e r h1 h2
    rcases c with msg | sz
    · simpa [streamLoop] using ⟨h1, h2⟩
    · by_cases hsz : sz = 0
      · simpa [streamLoop, hsz] using ih d e r h1 h2
      · by_cases ht : 0 < total
        · simpa [streamLoop, hsz, ht] using
            ih (d + sz) _ _ (chunkProgress_ge_10 _ _) (chunkProgress_le_90 _ _)
        · simpa [streamLoop, hsz, ht] using ih (d + sz) e r h1 h2

theorem streamLoop_snaps_bounds (fid : String) (total : Nat) :
    ∀ (chunks : List (Except String Nat)) (d : Nat) (e : Entry)
      (r : List (String × Entry)),
    ∀ x ∈ (streamLoop fid total chunks d e r).snaps,
      10 ≤ x.progress ∧ x.progress ≤ 90 := by
  intro chunks
  induction chunks with
  | nil => intro d e r x hx; simp [streamLoop] at hx
  | cons c rest ih =>
    intro d e r x hx
    rcases c with msg | sz
    · simp [streamLoop] at hx
    · by_cases hsz : sz = 0
      · exact ih d e r x (by simpa [streamLoop, hsz] using hx)
      · by_cases ht : 0 < total
        · simp only [streamLoop, hsz, ht, if_neg, if_pos, if_true, if_false] at hx
          simp at hx
          rcases hx with hx | hx | hx | hx
          · subst hx; exact ⟨chunkProgress_ge_10 _ _, chunkProgress_le_90 _ _⟩
          · subst hx; exact ⟨chunkProgress_ge_10 _ _, chunkProgress_le_90 _ _⟩
          · subst hx; exact ⟨chunkProgress_ge_10 _ _, chunkProgress_le_90 _ _⟩
          · exact ih _ _ _ x hx
        · exact ih (d + sz) e r x (by simpa [streamLoop, hsz, ht] using hx)

theorem chain_le_cons {a : Nat} {l : List Nat}
    (h1 : ∀ y ∈ l.head?, a ≤ y) (h2 : List.Chain' (fun x y => x ≤ y) l) :
    List.Chain' (fun x y => x ≤ y) (a :: l) :=
  List.chain'_cons'.mpr ⟨h1, h2⟩


/-- Closed form of the progress values written by the streaming loop: three
writes per nonempty chunk (progress, message, downloadedSize), all carrying
the same freshly computed progress. -/
def streamProgressList (total : Nat) : List (Except String Nat) → Nat → List Nat
  | [], _ => []
  | Except.error _ :: _, _ => []
  | Except.ok sz :: rest, d =>
    if sz = 0 then streamProgressList total rest d
    else
      if 0 < total then
        chunkProgress (d + sz) total :: chunkProgress (d + sz) total ::
          chunkProgress (d + sz) total :: streamProgressList total rest (d + sz)
      else streamProgressList total rest (d + sz)

/-- Closed form of the entry's progress after the streaming loop, starting
from progress `p`. -/
def streamFinalProgress (total : Nat) : List (Except String Nat) → Nat → Nat → Nat
  | [], _, p => p
  | Except.error _ :: _, _, p => p
  | Except.ok sz :: rest, d, p =>
    if sz = 0 then streamFinalProgress total rest d p
    else
      if 0 < total then
        streamFinalProgress total rest (d + sz) (chunkProgress (d + sz) total)
      else streamFinalProgress total rest (d + sz) p

theorem streamLoop_snaps_progress (fid : String) (total : Nat) :
    ∀ (chunks : List (Except String Nat)) (d : Nat) (e : Entry)
      (r : List (String × Entry)),
    (streamLoop fid total chunks d e r).snaps.map Entry.progress =
      streamProgressList total chunks d := by
  intro chunks
  induction chunks with
  | nil => intro d e r; simp [streamLoop, streamProgressList]
  | cons c rest ih =>
    intro d e r
    rcases c with msg | sz
    · simp [streamLoop, streamProgressList]
    · by_cases hsz : sz = 0
      · simp [streamLoop, streamProgressList, hsz, ih]
      · by_cases ht : 0 < total
        · simp [streamLoop, streamProgressList, hsz, ht, ih]
        · simp [streamLoop, streamProgressList, hsz, ht, ih]

theorem streamLoop_entry_progress (fid : String) (total : Nat) :
    ∀ (chunks : List (Except String Nat)) (d : Nat) (e : Entry)
      (r : List (String × Entry)),
    (streamLoop fid total chunks d e r).entry.progress =
      streamFinalProgress total chunks d e.progress := by
  intro chunks
  induction chunks with
  | nil => intro d e r; simp [streamLoop, streamFinalProgress]
  | cons c rest ih =>
    intro d e r
    rcases c with msg | sz
    · simp [streamLoop, streamFinalProgress]
    · by_cases hsz : sz = 0
      · simp [streamLoop, streamFinalProgress, hsz, ih]
      · by_cases ht : 0 < total
        · simp [streamLoop, streamFinalProgress, hsz, ht, ih]
        · simp [streamLoop, streamFinalProgress, hsz, ht, ih]

/-- During streaming with a known total, the progress values written are
non-decreasing and any non-decreasing `tail` dominating the final progress
extends the chain. -/
theorem streamProgressList_chain (total : Nat) (ht : 0 < total) :
    ∀ (chunks : List (Except String Nat)) (d : Nat) (tail : List Nat),
    (∀ y ∈ tail.head?, streamFinalProgress total chunks d (chunkProgress d total) ≤ y) →
    List.Chain' (fun a b => a ≤ b) tail →
    List.Chain' (fun a b => a ≤ b)
      (chunkProgress d total :: (streamProgressList total chunks d ++ tail)) := by
  intro chunks
  induction chunks with
  | nil =>
    intro d tail hhead htail
    simp only [streamProgressList, List.nil_append]
    exact chain_le_cons (by simpa [streamFinalProgress] using hhead) htail
  | cons c rest ih =>
    intro d tail hhead htail
    rcases c with msg | sz
    · simp only [streamProgressList, List.nil_append]
      exact chain_le_cons (by simpa [streamFinalProgress] using hhead) htail
    · by_cases hsz : sz = 0
      · simpa [streamProgressList, hsz] using
          ih d tail (by simpa [streamFinalProgress, hsz] using hhead) htail
      · simp only [streamProgressList, hsz, ht, if_pos, if_neg, if_false, if_true,
          List.cons_append]
        have hstep : chunkProgress d total ≤ chunkProgress (d + sz) total :=
          chunkProgress_mono total (Nat.le_add_right d sz)
        have hrec := ih (d + sz) tail
          (by simpa [streamFinalProgress, hsz, ht] using hhead) htail
        refine chain_le_cons ?_ (chain_le_cons ?_ (chain_le_cons ?_ hrec))
        · intro y hy; simp at hy; omega
        · intro y hy; simp at hy; omega
        · intro y hy
          rcases hl : streamProgressList total rest (d + sz) with _ | ⟨z, zs⟩
          · simp [hl] at hy
            have := List.chain'_cons'.mp hrec
            rcases hy with hy
            omega
          · simp [hl] at hy
            have := (List.chain'_cons'.mp hrec).1
            simp [hl] at this
            omega

theorem failResult_pack (fid : String) (fn : Option String) (msg : String)
    (reg : List (String × Entry)) (tr : List Entry) :
    regFind? (failResult fid fn msg reg tr).reg fid = some (failEntry fn msg) ∧
    (failResult fid fn msg reg tr).cleanupDelay = none ∧
    (failResult fid fn msg reg tr).trace = tr ++ [failEntry fn msg] := by
  refine ⟨?_, rfl, rfl⟩
  simp [failResult, regFind?_regSet_self]

/-- The entry left by the success tail: the pre-completion entry with the
five terminal fields written. -/
def completedEntry (s : StreamResult) (fp : String) : Entry :=
  { s.entry with
    status := Status.completed
    progress := 100
    message := "Download completed!"
    filePath := some fp
    finalSize := some s.downloaded }

theorem finishResult_pack (fid fp : String) (env : Env) (s : StreamResult)
    (trHead : List Entry) :
    regFind? (finishResult fid fp env s trHead).reg fid = some (completedEntry s fp) ∧
    (finishResult fid fp env s trHead).cleanupDelay = some 30 ∧
    (finishResult fid fp env s trHead).trace =
      trHead ++ s.snaps ++
        [{ s.entry with status := Status.completed },
         { s.entry with status := Status.completed, progress := 100 },
         { s.entry with
           status := Status.completed
           progress := 100
           message := "Download completed!" },
         { s.entry with
           status := Status.completed
           progress := 100
           message := "Download completed!"
           filePath := some fp },
         completedEntry s fp] := by
  refine ⟨?_, rfl, rfl⟩
  simp [finishResult, completedEntry, regFind?_regSet_self]

/-- Every run of the task ends in exactly one of two shapes: a completed
entry with the 30-second cleanup scheduled, or an error entry (progress 0,
error recorded) with no cleanup scheduled. -/
theorem task_cases (fid : String) (fn : Option String) (path : String)
    (env : Env) (reg0 : List (String × Entry)) :
    ∃ e, regFind? (download_file_background fid fn path env reg0).reg fid = some e ∧
      (((download_file_background fid fn path env reg0).cleanupDelay = some 30 ∧
        e.status = Status.completed ∧ e.progress = 100 ∧
        e.message = "Download completed!" ∧ e.filePath.isSome = true ∧
        e.finalSize.isSome = true) ∨
       ((download_file_background fid fn path env reg0).cleanupDelay = none ∧
        e.status = Status.error ∧ e.progress = 0 ∧
        ∃ msg, e.error = some msg ∧ e.message = "Download failed: " ++ msg)) := by
  unfold download_file_background
  rcases hinit : env.initiate with msg | info <;> simp only [hinit]
  · exact ⟨failEntry fn msg, (failResult_pack _ _ _ _ _).1,
      Or.inr ⟨(failResult_pack _ _ _ _ _).2.1, rfl, rfl, msg, rfl, rfl⟩⟩
  · rcases hmk : env.makedirs with msg | u <;> simp only [hmk]
    · exact ⟨failEntry _ msg, (failResult_pack _ _ _ _ _).1,
        Or.inr ⟨(failResult_pack _ _ _ _ _).2.1, rfl, rfl, msg, rfl, rfl⟩⟩
    · rcases hf : env.fetch with msg | cl <;> simp only [hf]
      · exact ⟨failEntry _ msg, (failResult_pack _ _ _ _ _).1,
          Or.inr ⟨(failResult_pack _ _ _ _ _).2.1, rfl, rfl, msg, rfl, rfl⟩⟩
      · simp only [streamLoop_err]
        rcases hfe : firstStreamError env.chunks with _ | msg <;> simp only [hfe]
        · exact ⟨completedEntry _ _, (finishResult_pack _ _ _ _ _).1,
            Or.inl ⟨(finishResult_pack _ _ _ _ _).2.1, rfl, rfl, rfl, rfl, rfl⟩⟩
        · exact ⟨failEntry _ msg, (failResult_pack _ _ _ _ _).1,
            Or.inr ⟨(failResult_pack _ _ _ _ _).2.1, rfl, rfl, msg, rfl, rfl⟩⟩

/-- When the metadata call, directory creation and streaming fetch succeed
and the chunk iterator raises nothing, the task ends completed. -/
theorem task_success (fid : String) (fn : Option String) (path : String)
    (env : Env) (reg0 : List (String × Entry)) (info : DownloadInfo)
    (u : Unit) (cl : Option Nat)
    (h1 : env.initiate = Except.ok info) (h2 : env.makedirs = Except.ok u)
    (h3 : env.fetch = Except.ok cl) (h4 : firstStreamError env.chunks = none) :
    ∃ e, regFind? (download_file_background fid fn path env reg0).reg fid = some e ∧
      e.status = Status.completed ∧ e.progress = 100 ∧
      e.message = "Download completed!" ∧ e.filePath.isSome = true ∧
      e.finalSize.isSome = true ∧
      (download_file_background fid fn path env reg0).cleanupDelay = some 30 := by
  unfold download_file_background
  simp only [h1, h2, h3, streamLoop_err, h4]
  exact ⟨completedEntry _ _, (finishResult_pack _ _ _ _ _).1,
    rfl, rfl, rfl, rfl, rfl, (finishResult_pack _ _ _ _ _).2.1⟩

/-- The first registry write of every task run is the initial 'downloading'
entry of lines 108-114. -/
theorem task_trace_head (fid : String) (fn : Option String) (path : String)
    (env : Env) (reg0 : List (String × Entry)) :
    (download_file_background fid fn path env reg0).trace.head? =
      some (initialEntry fn env.now) := by
  unfold download_file_background
  rcases hinit : env.initiate with msg | info <;> simp only [hinit]
  · simp [failResult]
  · rcases hmk : env.makedirs with msg | u <;> simp only [hmk]
    · simp [failResult]
    · rcases hf : env.fetch with msg | cl <;> simp only [hf]
      · simp [failResult]
      · simp only [streamLoop_err]
        rcases hfe : firstStreamError env.chunks with _ | msg <;> simp only [hfe]
        · simp [finishResult]
        · simp [failResult]

/-- C10: the destination directory is the series path exactly when the
request's contentType is the string 'series'; an absent contentType or any
other value selects the movies path. -/
theorem C10_destination_selection :
    ∀ (cfg : Config) (req : DownloadRequest) (reg : List (String × Entry)) (fid : String),
    req.fileId = some fid → fid ≠ "" → regFind? reg fid = none →
    ((req.contentType = some "series" →
        (download cfg req reg).spawned =
          [{ fileId := fid, fileName := req.fileName, downloadPath := cfg.seriesPath }]) ∧
     (req.contentType ≠ some "series" →
        (download cfg req reg).spawned =
          [{ fileId := fid, fileName := req.fileName, downloadPath := cfg.moviesPath }])) := by
  intro cfg req reg fid hfid hne hnone
  have hfalsy : fileIdFalsy (some fid) = false := by simp [fileIdFalsy, hne]
  constructor
  · intro hct
    simp [download, hfalsy, hfid, hnone, destinationPath, hct]
  · intro hct
    have hm : destinationPath cfg req.contentType = cfg.moviesPath := by
      rcases hc : req.contentType with _ | ct
      · simp [destinationPath]
      · have hcs : ct ≠ "series" := fun h => hct (by rw [hc, h])
        simp [destinationPath, hcs]
    simp [download, hfalsy, hfid, hnone, hm]

def cfgW10 : Config :=
  { moviesPath := "/downloads/movies"
    seriesPath := "/downloads/series" }

theorem C10_destination_selection_witness :
    (download cfgW10
        { fileId := some "s1", fileName := some "e.mkv", contentType := some "series" }
        []).spawned =
      [{ fileId := "s1", fileName := some "e.mkv", downloadPath := "/downloads/series" }] ∧
    (download cfgW10
        { fileId := some "m1", fileName := some "m.mkv", contentType := none }
        []).spawned =
      [{ fileId := "m1", fileName := some "m.mkv", downloadPath := "/downloads/movies" }] := by
  constructor
  · exact (C10_destination_selection cfgW10 _ [] "s1" rfl (by decide) rfl).1 rfl
  · exact (C10_destination_selection cfgW10 _ [] "m1" rfl (by decide) rfl).2 (by decide)

def cfgC1 : Config :=
  { moviesPath := "/downloads/movies"
    seriesPath := "/downloads/series" }

def reqC1 : DownloadRequest :=
  { fileId := some "abc"
    fileName := some "f.mkv"
    contentType := none }

/-- C1: the claim says that when no entry is present, an entry with status
Queued and progress 0 is inserted before the request returns.  In the code
the handler returns with the registry untouched (the entry is inserted later
by the spawned thread, and with status 'downloading' — no Queued status
exists): on the empty registry the request returns success yet the registry
still has no entry for the id. -/
theorem C1_handler_inserts_no_entry :
    (download cfgC1 reqC1 []).response =
      DownloadResponse.started "Download started: f.mkv" "abc" ∧
    regFind? (download cfgC1 reqC1 []).reg "abc" = none ∧
    (download cfgC1 reqC1 []).spawned.length = 1 := by
  refine ⟨by decide, by decide, by decide⟩

/-- C1 (amended): if an entry for the fileId is present, the request returns
the existing entry's status and progress and spawns nothing; if absent, the
request spawns exactly one task and returns success WITHOUT inserting any
entry — the spawned task itself inserts, as its first registry write, an
entry with status 'downloading' (not Queued) and progress 0. -/
theorem C1_dedup_and_deferred_insert :
    ∀ (cfg : Config) (req : DownloadRequest) (reg : List (String × Entry)) (fid : String),
    req.fileId = some fid → fid ≠ "" →
    ((∀ e, regFind? reg fid = some e →
        (download cfg req reg).spawned = [] ∧
        (download cfg req reg).reg = reg ∧
        (download cfg req reg).response =
          DownloadResponse.alreadyInProgress
            ("Download already in progress: " ++ showName req.fileName)
            e.status e.progress) ∧
     (regFind? reg fid = none →
        (download cfg req reg).reg = reg ∧
        (download cfg req reg).spawned =
          [{ fileId := fid, fileName := req.fileName,
             downloadPath := destinationPath cfg req.contentType }] ∧
        (download cfg req reg).response =
          DownloadResponse.started ("Download started: " ++ showName req.fileName) fid ∧
        ∀ (env : Env) (reg1 : List (String × Entry)),
          (download_file_background fid req.fileName
              (destinationPath cfg req.contentType) env reg1).trace.head? =
            some (initialEntry req.fileName env.now) ∧
          (initialEntry req.fileName env.now).status = Status.downloading ∧
          (initialEntry req.fileName env.now).progress = 0)) := by
  intro cfg req reg fid hfid hne
  have hfalsy : fileIdFalsy (some fid) = false := by simp [fileIdFalsy, hne]
  constructor
  · intro e he
    refine ⟨?_, ?_, ?_⟩ <;> simp [download, hfalsy, hfid, he]
  · intro hnone
    refine ⟨?_, ?_, ?_, ?_⟩
    · simp [download, hfalsy, hfid, hnone]
    · simp [download, hfalsy, hfid, hnone]
    · simp [download, hfalsy, hfid, hnone]
    · intro env reg1
      exact ⟨task_trace_head _ _ _ _ _, rfl, rfl⟩

def cfgW1 : Config :=
  { moviesPath := "/m"
    seriesPath := "/s" }

def entW1 : Entry := initialEntry (some "old.mkv") 7

theorem C1_dedup_and_deferred_insert_witness :
    ((download cfgW1 { fileId := some "w1", fileName := some "w.mkv", contentType := none }
        []).reg = [] ∧
     (download cfgW1 { fileId := some "w1", fileName := some "w.mkv", contentType := none }
        []).spawned =
       [{ fileId := "w1", fileName := some "w.mkv", downloadPath := "/m" }]) ∧
    (download cfgW1 { fileId := some "w1b", fileName := some "w.mkv", contentType := none }
        [("w1b", entW1)]).spawned = [] := by
  constructor
  · have h := (C1_dedup_and_deferred_insert cfgW1
      { fileId := some "w1", fileName := some "w.mkv", contentType := none }
      [] "w1" rfl (by decide)).2 rfl
    exact ⟨h.1, h.2.1⟩
  · exact ((C1_dedup_and_deferred_insert cfgW1
      { fileId := some "w1b", fileName := some "w.mkv", contentType := none }
      [("w1b", entW1)] "w1b" rfl (by decide)).1 entW1 (by decide)).1

def entC5 : Entry :=
  { status := Status.downloading
    fileName := some "x.mkv"
    progress := 42
    message := "Downloading... 32%"
    startTime := some 0
    totalSize := some 100
    downloadedSize := some 40
    filePath := none
    finalSize := none
    error := none }

/-- C5: the claim says the scheduled removal deletes the entry only if it is
still in a terminal state at removal time.  In the code the cleanup body
checks only presence (`if file_id in active_downloads`): run on a registry
whose entry is still in the non-terminal 'downloading' state, it deletes it
anyway. -/
theorem C5_cleanup_removes_nonterminal :
    entC5.status = Status.downloading ∧
    regFind? [("live", entC5)] "live" = some entC5 ∧
    regFind? (cleanup "live" [("live", entC5)]) "live" = none := by
  refine ⟨rfl, by decide, by decide⟩

/-- C5 (amended): the scheduled removal deletes the entry whenever it is
still present, regardless of its state; a run that ends Completed schedules
the cleanup with the 30-second delay, and a run that ends Failed schedules
no cleanup at all, so a failed entry is never evicted. -/
theorem C5_eviction_policy :
    ∀ (fid : String) (reg : List (String × Entry)) (e : Entry)
      (fn : Option String) (path : String) (env : Env) (reg0 : List (String × Entry)),
    (regFind? reg fid = some e → regFind? (cleanup fid reg) fid = none) ∧
    (∃ e2, regFind? (download_file_background fid fn path env reg0).reg fid = some e2 ∧
       ((e2.status = Status.completed ∧
         (download_file_background fid fn path env reg0).cleanupDelay = some 30) ∨
        (e2.status = Status.error ∧
         (download_file_background fid fn path env reg0).cleanupDelay = none))) := by
  intro fid reg e fn path env reg0
  constructor
  · intro h
    unfold cleanup
    rw [h]
    exact regFind?_regDel_self reg fid
  · obtain ⟨e2, he2, hc⟩ := task_cases fid fn path env reg0
    exact ⟨e2, he2,
      hc.elim (fun h => Or.inl ⟨h.2.1, h.1⟩) (fun h => Or.inr ⟨h.2.1, h.1⟩)⟩

def envW5 : Env :=
  { now := 0
    initiate := Except.error "metadata down"
    makedirs := Except.ok ()
    fetch := Except.ok none
    chunks := []
    chmodOk := true
    plexToken := false
    plexResult := Except.ok 200 }

theorem C5_eviction_policy_witness :
    regFind? (cleanup "w5" [("w5", entC5)]) "w5" = none ∧
    (download_file_background "w5" (some "w5.mkv") "/m" envW5 []).cleanupDelay = none := by
  have h := C5_eviction_policy "w5" [("w5", entC5)] entC5 (some "w5.mkv") "/m" envW5 []
  refine ⟨h.1 (by decide), ?_⟩
  obtain ⟨e2, he2, hc⟩ := h.2
  rcases hc with ⟨hst, hd⟩ | ⟨hst, hd⟩
  · exact absurd hd (by decide)
  · exact hd

/-- C9: a failed run never schedules eviction, so the error entry stays in
the registry; and any later begin-download request for that fileId answers
from the existing entry and spawns nothing, so a failed download cannot be
retried under the same fileId while the process lives. -/
theorem C9_failed_entry_permanent :
    (∀ (fid : String) (fn : Option String) (path : String) (env : Env)
       (reg0 : List (String × Entry)) (e : Entry),
      regFind? (download_file_background fid fn path env reg0).reg fid = some e →
      e.status = Status.error →
      (download_file_background fid fn path env reg0).cleanupDelay = none) ∧
    (∀ (cfg : Config) (req : DownloadRequest) (reg : List (String × Entry))
       (fid : String) (e : Entry),
      req.fileId = some fid → fid ≠ "" →
      regFind? reg fid = some e → e.status = Status.error →
      (download cfg req reg).spawned = [] ∧
      (download cfg req reg).reg = reg ∧
      (download cfg req reg).response =
        DownloadResponse.alreadyInProgress
          ("Download already in progress: " ++ showName req.fileName)
          e.status e.progress) := by
  constructor
  · intro fid fn path env reg0 e hfind hst
    obtain ⟨e2, he2, hc⟩ := task_cases fid fn path env reg0
    rw [hfind] at he2
    obtain rfl : e = e2 := Option.some.inj he2
    rcases hc with ⟨_, hst2, _⟩ | ⟨hd, _⟩
    · rw [hst] at hst2
      exact absurd hst2 (by decide)
    · exact hd
  · intro cfg req reg fid e hfid hne hfind hst
    have hfalsy : fileIdFalsy (some fid) = false := by simp [fileIdFalsy, hne]
    refine ⟨?_, ?_, ?_⟩ <;> simp [download, hfalsy, hfid, hfind]

def envW9 : Env :=
  { now := 0
    initiate := Except.error "limit reached"
    makedirs := Except.ok ()
    fetch := Except.ok none
    chunks := []
    chmodOk := true
    plexToken := false
    plexResult := Except.ok 200 }

def cfgW9 : Config :=
  { moviesPath := "/m"
    seriesPath := "/s" }

theorem C9_failed_entry_permanent_witness :
    (download_file_background "w9" (some "w9.mkv") "/m" envW9 []).cleanupDelay = none ∧
    (download cfgW9
        { fileId := some "w9", fileName := some "w9.mkv", contentType := none }
        [("w9", failEntry (some "w9.mkv") "limit reached")]).spawned = [] := by
  constructor
  · exact C9_failed_entry_permanent.1 "w9" (some "w9.mkv") "/m" envW9 []
      (failEntry (some "w9.mkv") "limit reached") (by decide) rfl
  · exact (C9_failed_entry_permanent.2 cfgW9
      { fileId := some "w9", fileName := some "w9.mkv", contentType := none }
      [("w9", failEntry (some "w9.mkv") "limit reached")] "w9"
      (failEntry (some "w9.mkv") "limit reached") rfl (by decide) (by decide) rfl).1

def envC2 : Env :=
  { now := 0
    initiate := Except.ok { downloadUrl := "u", fileSize := 0, fileName := "d.mkv" }
    makedirs := Except.ok ()
    fetch := Except.ok (some 100)
    chunks := [Except.ok 50, Except.error "connection lost"]
    chmodOk := true
    plexToken := false
    plexResult := Except.ok 200 }

/-- C2: the claim says a failing task leaves `progress` unchanged from its
last pre-failure value.  In the code the except handler replaces the whole
entry with a fresh dict carrying `'progress': 0`: in this run the last
pre-failure write was progress 50, yet the final entry holds progress 0. -/
theorem C2_progress_reset_on_failure :
    ((download_file_background "dl" (some "d.mkv") "/m" envC2 []).trace.map
        Entry.progress = [0, 0, 5, 5, 10, 10, 50, 50, 50, 0]) ∧
    (regFind? (download_file_background "dl" (some "d.mkv") "/m" envC2 []).reg "dl").map
        Entry.progress = some 0 ∧
    (regFind? (download_file_background "dl" (some "d.mkv") "/m" envC2 []).reg "dl").map
        Entry.status = some Status.error := by
  refine ⟨by decide, by decide, by decide⟩

/-- C2 (amended): a failing task replaces its entry wholesale: the final
entry has status 'error', `error` set to the failure description, message
"Download failed: " plus that description, and progress reset to 0 — the
pre-failure progress is not preserved. -/
theorem C2_failure_entry_shape :
    ∀ (fid : String) (fn : Option String) (path : String) (env : Env)
      (reg0 : List (String × Entry)),
    (download_file_background fid fn path env reg0).cleanupDelay = none →
    ∃ e, regFind? (download_file_background fid fn path env reg0).reg fid = some e ∧
      e.status = Status.error ∧ e.progress = 0 ∧
      ∃ msg, e.error = some msg ∧ e.message = "Download failed: " ++ msg := by
  intro fid fn path env reg0 hdelay
  obtain ⟨e, he, hc⟩ := task_cases fid fn path env reg0
  rcases hc with ⟨hd, _⟩ | ⟨_, hst, hp, hmsg⟩
  · rw [hdelay] at hd
    exact absurd hd (by simp)
  · exact ⟨e, he, hst, hp, hmsg⟩

def envW2 : Env :=
  { now := 0
    initiate := Except.error "account expired"
    makedirs := Except.ok ()
    fetch := Except.ok none
    chunks := []
    chmodOk := true
    plexToken := false
    plexResult := Except.ok 200 }

theorem C2_failure_entry_shape_witness :
    (regFind? (download_file_background "w2" (some "w2.mkv") "/m" envW2 []).reg "w2").map
        Entry.status = some Status.error ∧
    (regFind? (download_file_background "w2" (some "w2.mkv") "/m" envW2 []).reg "w2").map
        Entry.progress = some 0 := by
  obtain ⟨e, he, hst, hp, _⟩ :=
    C2_failure_entry_shape "w2" (some "w2.mkv") "/m" envW2 [] (by decide)
  rw [he]
  simp [hst, hp]

/-- C7: a task whose metadata call, directory creation and streaming fetch
succeed and whose chunk iterator raises nothing ends with status
'completed', progress exactly 100, message "Download completed!" and both
`filePath` and `finalSize` populated. -/
theorem C7_completed_entry :
    ∀ (fid : String) (fn : Option String) (path : String) (env : Env)
      (reg0 : List (String × Entry)) (info : DownloadInfo) (u : Unit)
      (cl : Option Nat),
    env.initiate = Except.ok info → env.makedirs = Except.ok u →
    env.fetch = Except.ok cl → firstStreamError env.chunks = none →
    ∃ e, regFind? (download_file_background fid fn path env reg0).reg fid = some e ∧
      e.status = Status.completed ∧ e.progress = 100 ∧
      e.message = "Download completed!" ∧ e.filePath.isSome = true ∧
      e.finalSize.isSome = true :=
  fun fid fn path env reg0 info u cl h1 h2 h3 h4 =>
    (task_success fid fn path env reg0 info u cl h1 h2 h3 h4).imp
      (fun _e h => ⟨h.1, h.2.1, h.2.2.1, h.2.2.2.1, h.2.2.2.2.1, h.2.2.2.2.2.1⟩)

def infoW7 : DownloadInfo :=
  { downloadUrl := "https://host/w7"
    fileSize := 0
    fileName := "w7.mkv" }

def envW7 : Env :=
  { now := 0
    initiate := Except.ok infoW7
    makedirs := Except.ok ()
    fetch := Except.ok (some 1000)
    chunks := [Except.ok 500, Except.ok 500]
    chmodOk := true
    plexToken := false
    plexResult := Except.ok 200 }

theorem C7_completed_entry_witness :
    (regFind? (download_file_background "w7" (some "w7.mkv") "/m" envW7 []).reg "w7").map
        Entry.status = some Status.completed ∧
    (regFind? (download_file_background "w7" (some "w7.mkv") "/m" envW7 []).reg "w7").map
        Entry.progress = some 100 := by
  obtain ⟨e, he, hst, hp, _⟩ :=
    C7_completed_entry "w7" (some "w7.mkv") "/m" envW7 [] infoW7 () (some 1000)
      rfl rfl rfl rfl
  rw [he]
  simp [hst, hp]

/-- C8: the Plex-refresh outcome is immaterial to the task's result — the
inner try/except swallows any failure — so the run with a raising
notification call equals the run with any other notification outcome, and
after a successful stream the entry is still completed at progress 100 with
cleanup scheduled even when the notification call raises. -/
theorem C8_notification_failure_immaterial :
    ∀ (fid : String) (fn : Option String) (path : String) (env : Env)
      (reg0 : List (String × Entry)) (pr : Except String Nat) (msg : String)
      (info : DownloadInfo) (u : Unit) (cl : Option Nat),
    (download_file_background fid fn path { env with plexResult := pr } reg0 =
      download_file_background fid fn path env reg0) ∧
    (env.initiate = Except.ok info → env.makedirs = Except.ok u →
     env.fetch = Except.ok cl → firstStreamError env.chunks = none →
     ∃ e, regFind?
          (download_file_background fid fn path
            { env with plexResult := Except.error msg } reg0).reg fid = some e ∧
       e.status = Status.completed ∧ e.progress = 100 ∧
       (download_file_background fid fn path
          { env with plexResult := Except.error msg } reg0).cleanupDelay = some 30) := by
  intro fid fn path env reg0 pr msg info u cl
  constructor
  · rfl
  · intro h1 h2 h3 h4
    obtain ⟨e, he, hst, hp, _, _, _, hd⟩ :=
      task_success fid fn path { env with plexResult := Except.error msg } reg0 info u cl
        (by simpa using h1) (by simpa using h2) (by simpa using h3) (by simpa using h4)
    exact ⟨e, he, hst, hp, hd⟩

def infoW8 : DownloadInfo :=
  { downloadUrl := "https://host/w8"
    fileSize := 600
    fileName := "w8.mkv" }

def envW8 : Env :=
  { now := 0
    initiate := Except.ok infoW8
    makedirs := Except.ok ()
    fetch := Except.ok none
    chunks := [Except.ok 600]
    chmodOk := true
    plexToken := true
    plexResult := Except.ok 200 }

theorem C8_notification_failure_immaterial_witness :
    (download_file_background "w8" (some "w8.mkv") "/m"
        { envW8 with plexResult := Except.error "plex unreachable" } [] =
      download_file_background "w8" (some "w8.mkv") "/m" envW8 []) ∧
    (regFind? (download_file_background "w8" (some "w8.mkv") "/m"
        { envW8 with plexResult := Except.error "plex unreachable" } []).reg "w8").map
      Entry.status = some Status.completed := by
  have h := C8_notification_failure_immaterial "w8" (some "w8.mkv") "/m" envW8 []
    (Except.error "plex unreachable") "plex unreachable" infoW8 () none
  refine ⟨h.1, ?_⟩
  obtain ⟨e, he, hst, _, _⟩ := h.2 rfl rfl rfl rfl
  rw [he]
  simp [hst]

/-- C6: per received nonempty chunk with a known total, the task writes
progress `min(90, 10 + floor(downloaded/total * 80))`, so every progress
value written during the byte-transfer phase lies in the band [10, 90]. -/
theorem C6_progress_band :
    ∀ total : Nat, 0 < total →
    (∀ d : Nat, chunkProgress d total = min 90 (10 + d * 80 / total) ∧
       10 ≤ chunkProgress d total ∧ chunkProgress d total ≤ 90) ∧
    (∀ (fid : String) (chunks : List (Except String Nat)) (d : Nat) (e : Entry)
       (r : List (String × Entry)),
       ∀ x ∈ (streamLoop fid total chunks d e r).snaps,
         10 ≤ x.progress ∧ x.progress ≤ 90) ∧
    (∀ (fid : String) (sz : Nat) (rest : List (Except String Nat)) (d : Nat)
       (e : Entry) (r : List (String × Entry)), sz ≠ 0 →
       (streamLoop fid total (Except.ok sz :: rest) d e r).snaps.head? =
         some { e with progress := chunkProgress (d + sz) total }) := by
  intro total ht
  refine ⟨fun d => ⟨rfl, chunkProgress_ge_10 d total, chunkProgress_le_90 d total⟩,
    fun fid chunks d e r => streamLoop_snaps_bounds fid total chunks d e r, ?_⟩
  intro fid sz rest d e r hsz
  simp [streamLoop, hsz, ht]

theorem C6_progress_band_witness :
    chunkProgress 500 1000 = min 90 (10 + 500 * 80 / 1000) ∧
    10 ≤ chunkProgress 500 1000 ∧ chunkProgress 500 1000 ≤ 90 :=
  (C6_progress_band 1000 (by decide)).1 500

theorem streamLoop_zero_entry (fid : String) (chunks : List (Except String Nat))
    (d : Nat) (e : Entry) (r : List (String × Entry)) :
    (streamLoop fid 0 chunks d e r).entry = e :=
  (streamLoop_total_zero fid chunks d e r).1

theorem streamLoop_zero_reg (fid : String) (chunks : List (Except String Nat))
    (d : Nat) (e : Entry) (r : List (String × Entry)) :
    (streamLoop fid 0 chunks d e r).reg = r :=
  (streamLoop_total_zero fid chunks d e r).2.1

theorem streamLoop_zero_snaps (fid : String) (chunks : List (Except String Nat))
    (d : Nat) (e : Entry) (r : List (String × Entry)) :
    (streamLoop fid 0 chunks d e r).snaps = [] :=
  (streamLoop_total_zero fid chunks d e r).2.2

theorem streamProgressList_total_zero :
    ∀ (chunks : List (Except String Nat)) (d : Nat),
    streamProgressList 0 chunks d = [] := by
  intro chunks
  induction chunks with
  | nil => intro d; simp [streamProgressList]
  | cons c rest ih =>
    intro d
    rcases c with msg | sz
    · simp [streamProgressList]
    · by_cases hsz : sz = 0
      · simp [streamProgressList, hsz, ih]
      · simp [streamProgressList, hsz, ih]

theorem streamFinalProgress_total_zero :
    ∀ (chunks : List (Except String Nat)) (d p : Nat),
    streamFinalProgress 0 chunks d p = p := by
  intro chunks
  induction chunks with
  | nil => intro d p; simp [streamFinalProgress]
  | cons c rest ih =>
    intro d p
    rcases c with msg | sz
    · simp [streamFinalProgress]
    · by_cases hsz : sz = 0
      · simp [streamFinalProgress, hsz, ih]
      · simp [streamFinalProgress, hsz, ih]

theorem streamFinalProgress_bound (total : Nat) :
    ∀ (chunks : List (Except String Nat)) (d p : Nat), 10 ≤ p → p ≤ 90 →
    10 ≤ streamFinalProgress total chunks d p ∧
    streamFinalProgress total chunks d p ≤ 90 := by
  intro chunks
  induction chunks with
  | nil => intro d p h1 h2; simpa [streamFinalProgress] using ⟨h1, h2⟩
  | cons c rest ih =>
    intro d p h1 h2
    rcases c with msg | sz
    · simpa [streamFinalProgress] using ⟨h1, h2⟩
    · by_cases hsz : sz = 0
      · simpa [streamFinalProgress, hsz] using ih d p h1 h2
      · by_cases ht : 0 < total
        · simpa [streamFinalProgress, hsz, ht] using
            ih (d + sz) _ (chunkProgress_ge_10 _ _) (chunkProgress_le_90 _ _)
        · simpa [streamFinalProgress, hsz, ht] using ih (d + sz) p h1 h2

def envC4 : Env :=
  { now := 0
    initiate := Except.ok { downloadUrl := "u", fileSize := 0, fileName := "x.mkv" }
    makedirs := Except.ok ()
    fetch := Except.ok none
    chunks := [Except.ok 500, Except.ok 500]
    chmodOk := true
    plexToken := false
    plexResult := Except.ok 200 }

/-- C4: the claim says that with unknown totalSize the `downloadedSize`
field is still updated after each received chunk.  In the code the
`downloadedSize` write (line 158) sits inside the `if total_size > 0` block,
so with total 0 it is never written: this run receives two 500-byte chunks
yet every snapshot of the entry — and the final entry — has no
downloadedSize at all. -/
theorem C4_downloadedSize_never_written :
    envC4.chunks = [Except.ok 500, Except.ok 500] ∧
    (download_file_background "xyz" (some "x.mkv") "/m" envC4 []).cleanupDelay = some 30 ∧
    ((download_file_background "xyz" (some "x.mkv") "/m" envC4 []).trace.map
        Entry.downloadedSize).all Option.isNone = true := by
  refine ⟨rfl, by decide, by decide⟩

/-- C4 (amended): when the resolved total size is 0, the streaming loop
performs no registry write at all: every snapshot of the entry has
`downloadedSize` unset, and while the entry is still in the 'downloading'
state its progress never exceeds 10, the last value set before streaming
began. -/
theorem C4_unknown_total_no_stream_writes :
    ∀ (fid : String) (fn : Option String) (path : String) (env : Env)
      (reg0 : List (String × Entry)) (info : DownloadInfo) (cl : Option Nat),
    env.initiate = Except.ok info → env.fetch = Except.ok cl →
    cl.getD info.fileSize = 0 →
    ∀ x ∈ (download_file_background fid fn path env reg0).trace,
      x.downloadedSize = none ∧ (x.status = Status.downloading → x.progress ≤ 10) := by
  intro fid fn path env reg0 info cl h1 h3 h0
  unfold download_file_background
  simp only [h1]
  rcases hmk : env.makedirs with msg | u <;> simp only [hmk]
  · intro x hx
    simp [failResult] at hx
    rcases hx with hx | hx <;> subst hx <;> simp [initialEntry, failEntry]
  · simp only [h3, h0, streamLoop_err]
    rcases hfe : firstStreamError env.chunks with _ | msg <;> simp only [hfe]
    · intro x hx
      simp [finishResult, streamLoop_zero_snaps, streamLoop_zero_entry] at hx
      rcases hx with hx | hx | hx | hx | hx | hx | hx | hx | hx | hx | hx <;>
        subst hx <;> simp [initialEntry]
    · intro x hx
      simp [failResult, streamLoop_zero_snaps] at hx
      rcases hx with hx | hx | hx | hx | hx | hx | hx <;>
        subst hx <;> simp [initialEntry, failEntry]

def infoW4 : DownloadInfo :=
  { downloadUrl := "https://host/w4"
    fileSize := 0
    fileName := "w4.mkv" }

def envW4 : Env :=
  { now := 0
    initiate := Except.ok infoW4
    makedirs := Except.ok ()
    fetch := Except.ok none
    chunks := [Except.ok 256]
    chmodOk := true
    plexToken := false
    plexResult := Except.ok 200 }

theorem C4_unknown_total_no_stream_writes_witness :
    (initialEntry (some "w4.mkv") envW4.now).downloadedSize = none ∧
    ((initialEntry (some "w4.mkv") envW4.now).status = Status.downloading →
      (initialEntry (some "w4.mkv") envW4.now).progress ≤ 10) :=
  C4_unknown_total_no_stream_writes "w4" (some "w4.mkv") "/m" envW4 [] infoW4 none
    rfl rfl rfl (initialEntry (some "w4.mkv") envW4.now) (by decide)

def envC3 : Env :=
  { now := 0
    initiate := Except.ok { downloadUrl := "u", fileSize := 0, fileName := "m.mkv" }
    makedirs := Except.ok ()
    fetch := Except.ok (some 100)
    chunks := [Except.ok 25, Except.error "stream reset"]
    chmodOk := true
    plexToken := false
    plexResult := Except.ok 200 }

/-- C3: the claim says the progress values written from task start to the
terminal state are monotonically non-decreasing.  A failing task's final
write resets progress to 0: in this run the writes are
0,0,5,5,10,10,30,30,30 and then 0, which is not non-decreasing. -/
theorem C3_failure_breaks_monotonicity :
    ((download_file_background "mono" (some "m.mkv") "/m" envC3 []).trace.map
        Entry.progress = [0, 0, 5, 5, 10, 10, 30, 30, 30, 0]) ∧
    ¬ List.Chain' (fun a b => a ≤ b)
      ((download_file_background "mono" (some "m.mkv") "/m" envC3 []).trace.map
        Entry.progress) := by
  have hmap : (download_file_background "mono" (some "m.mkv") "/m" envC3 []).trace.map
      Entry.progress = [0, 0, 5, 5, 10, 10, 30, 30, 30, 0] := by decide
  refine ⟨hmap, fun h => ?_⟩
  rw [hmap] at h
  simp [List.chain'_cons] at h

/-- C3 (amended): every progress value a task writes lies in [0,100], and
for a run that ends successfully (the only runs that schedule cleanup) the
written progress sequence is monotonically non-decreasing; a failing run
breaks monotonicity only through its final write, which resets progress
to 0. -/
theorem C3_progress_bounded_monotone_on_success :
    ∀ (fid : String) (fn : Option String) (path : String) (env : Env)
      (reg0 : List (String × Entry)),
    (∀ x ∈ (download_file_background fid fn path env reg0).trace, x.progress ≤ 100) ∧
    ((download_file_background fid fn path env reg0).cleanupDelay.isSome = true →
      List.Chain' (fun a b => a ≤ b)
        ((download_file_background fid fn path env reg0).trace.map Entry.progress)) := by
  intro fid fn path env reg0
  unfold download_file_background
  rcases hinit : env.initiate with msg | info <;> simp only [hinit]
  · constructor
    · intro x hx
      simp [failResult] at hx
      rcases hx with hx | hx <;> subst hx <;> simp [initialEntry, failEntry]
    · intro h
      simp [failResult] at h
  · rcases hmk : env.makedirs with msg | u <;> simp only [hmk]
    · constructor
      · intro x hx
        simp [failResult] at hx
        rcases hx with hx | hx <;> subst hx <;> simp [initialEntry, failEntry]
      · intro h
        simp [failResult] at h
    · rcases hf : env.fetch with msg | cl <;> simp only [hf]
      · constructor
        · intro x hx
          simp [failResult] at hx
          rcases hx with hx | hx | hx | hx <;> subst hx <;>
            simp [initialEntry, failEntry]
        · intro h
          simp [failResult] at h
      · simp only [streamLoop_err]
        rcases hfe : firstStreamError env.chunks with _ | msg <;> simp only [hfe]
        · constructor
          · intro x hx
            simp [finishResult] at hx
            have hb := streamFinalProgress_bound (cl.getD info.fileSize) env.chunks 0 10
              (by norm_num) (by norm_num)
            rcases hx with hx | hx | hx | hx | hx | hx | hx | hx | hx | hx | hx | hx <;>
              first
                | exact le_trans (streamLoop_snaps_bounds _ _ _ _ _ _ x hx).2 (by norm_num)
                | (subst hx; simp [initialEntry]; done)
                | (subst hx; simp [streamLoop_entry_progress, initialEntry]; omega)
          · intro _
            rcases Nat.eq_zero_or_pos (cl.getD info.fileSize) with h0 | hpos
            · simp only [h0]
              simp [finishResult, streamLoop_zero_snaps, streamLoop_zero_entry,
                initialEntry]
            · simp only [finishResult, List.map_append, List.map_cons, List.map_nil,
                List.cons_append, List.nil_append, streamLoop_snaps_progress,
                streamLoop_entry_progress, initialEntry]
              have hF := streamFinalProgress_bound (cl.getD info.fileSize) env.chunks 0 10
                (by norm_num) (by norm_num)
              have htail : List.Chain' (fun a b => a ≤ b)
                  (streamFinalProgress (cl.getD info.fileSize) env.chunks 0 10 ::
                    [100, 100, 100, 100]) := by
                refine chain_le_cons ?_ ?_
                · intro y hy
                  simp at hy
                  omega
                · refine chain_le_cons ?_ (chain_le_cons ?_ (chain_le_cons ?_
                    (List.chain'_singleton 100))) <;>
                    (intro y hy; simp at hy; omega)
              have hmain := streamProgressList_chain (cl.getD info.fileSize) hpos
                env.chunks 0
                (streamFinalProgress (cl.getD info.fileSize) env.chunks 0 10 ::
                  [100, 100, 100, 100])
                (by intro y hy; simp [chunkProgress_zero] at hy ⊢; omega) htail
              rw [chunkProgress_zero] at hmain
              refine chain_le_cons ?_ (chain_le_cons ?_ (chain_le_cons ?_
                (chain_le_cons ?_ (chain_le_cons ?_ hmain)))) <;>
                (intro y hy; simp at hy; omega)
        · constructor
          · intro x hx
            simp [failResult] at hx
            rcases hx with hx | hx | hx | hx | hx | hx | hx | hx <;>
              first
                | exact le_trans (streamLoop_snaps_bounds _ _ _ _ _ _ x hx).2 (by norm_num)
                | (subst hx; simp [initialEntry, failEntry])
          · intro h
            simp [failResult] at h

def envW3 : Env :=
  { now := 0
    initiate := Except.ok { downloadUrl := "https://host/w3", fileSize := 0, fileName := "w3.mkv" }
    makedirs := Except.ok ()
    fetch := Except.ok (some 600)
    chunks := [Except.ok 300, Except.ok 300]
    chmodOk := true
    plexToken := false
    plexResult := Except.ok 200 }

theorem C3_progress_bounded_monotone_on_success_witness :
    (initialEntry (some "w3.mkv") 0).progress ≤ 100 ∧
    List.Chain' (fun a b => a ≤ b)
      ((download_file_background "w3" (some "w3.mkv") "/m" envW3 []).trace.map
        Entry.progress) :=
  ⟨(C3_progress_bounded_monotone_on_success "w3" (some "w3.mkv") "/m" envW3 []).1
      (initialEntry (some "w3.mkv") 0) (by decide),
   (C3_progress_bounded_monotone_on_success "w3" (some "w3.mkv") "/m" envW3 []).2
      (by decide)⟩
